import Mathlib

/-!
Verification of the log-replay semantics of `replay.py` (MIA replay viewer).

The Python module is shallowly embedded: Python strings are `List Char`,
Python `datetime` values are encoded as natural numbers through an
order-preserving encoding of their six calendar fields, Python floats are
exact rationals (the program only parses, stores and averages them), and
code that can raise an exception returns `Except` or `Option`.
-/

namespace Replay

/-- Python strings are modelled as lists of characters. -/
abbrev Str := List Char

/-- Characters stripped by Python `str.strip()` (ASCII whitespace). -/
def isSpaceChar (c : Char) : Bool :=
  c = ' ' || c = '\t' || c = '\n' || c = '\r' || c = '\x0b' || c = '\x0c'

/-- Model of Python `str.strip()`: drop whitespace from both ends. -/
def pyStrip (l : Str) : Str :=
  ((l.dropWhile isSpaceChar).reverse.dropWhile isSpaceChar).reverse

/-- Auxiliary worker for `splitSub`.  `skip` counts separator characters
still to be consumed after a match was emitted, so the recursion is
structural on the string; `acc` is the current chunk, reversed. -/
def splitSubGo (sep : Str) : Str → ℕ → Str → List Str
  | [], _, acc => [acc.reverse]
  | _ :: rest, skip + 1, acc => splitSubGo sep rest skip acc
  | c :: rest, 0, acc =>
    if sep.isPrefixOf (c :: rest) then
      acc.reverse :: splitSubGo sep rest (sep.length - 1) []
    else
      splitSubGo sep rest 0 (c :: acc)

/-- Model of Python `str.split(sep)` for a non-empty separator: split on every
occurrence of the separator substring.  (Python raises on an empty separator;
the program only splits on the literal separators used in `replay.py`.) -/
def splitSub (sep : Str) (l : Str) : List Str :=
  match sep with
  | [] => [l]
  | _ :: _ => splitSubGo sep l 0 []

/-- Model of Python `c in s` for a single-character needle. -/
def containsChar (c : Char) (l : Str) : Bool := l.any (fun x => x = c)

/-- Model of Python `str.index(c)`: position of the first occurrence, `none`
when absent (Python raises `ValueError` there). -/
def indexOfChar (c : Char) : Str → Option ℕ
  | [] => none
  | x :: t => if x = c then some 0 else (indexOfChar c t).map (fun i => i + 1)

/-- Value of a decimal digit character, `none` for non-digits. -/
def digitVal (c : Char) : Option ℕ :=
  if c.isDigit then some (c.toNat - 48) else none

/-- Two decimal digits. -/
def num2 (a b : Char) : Option ℕ := do
  let x ← digitVal a
  let y ← digitVal b
  pure (10 * x + y)

/-- Four decimal digits. -/
def num4 (a b c d : Char) : Option ℕ := do
  let x ← num2 a b
  let y ← num2 c d
  pure (100 * x + y)

/-- Model of `datetime.datetime.strptime(s, "%Y-%m-%d %H:%M:%S")`, restricted
to the canonical zero-padded form the log format uses (Python additionally
accepts unpadded fields, which nothing here exercises).  The result is an
order-preserving encoding of the six fields (day < 32, month < 13, hour < 24,
minute and second < 60), so comparisons of the encodings agree with
chronological comparisons of the datetimes.  Field-range validation mirrors
`strptime`/`datetime` (month 1-12, day 1-31, hour 0-23, minute/second 0-59,
year at least 1); per-month day counts are not re-checked, which no input in
this development exercises. -/
def strptime (l : Str) : Option ℕ :=
  match l with
  | [y1, y2, y3, y4, '-', m1, m2, '-', d1, d2, ' ', h1, h2, ':', n1, n2, ':', s1, s2] => do
    let y ← num4 y1 y2 y3 y4
    let mo ← num2 m1 m2
    let d ← num2 d1 d2
    let h ← num2 h1 h2
    let mi ← num2 n1 n2
    let s ← num2 s1 s2
    if 1 ≤ y ∧ 1 ≤ mo ∧ mo ≤ 12 ∧ 1 ≤ d ∧ d ≤ 31 ∧ h ≤ 23 ∧ mi ≤ 59 ∧ s ≤ 59 then
      pure (((((y * 13 + mo) * 32 + d) * 24 + h) * 60 + mi) * 60 + s)
    else
      none
  | _ => none

/-- Numeric value of a string of decimal digits. -/
def digitsToNat (l : Str) : ℕ := l.foldl (fun a c => a * 10 + (c.toNat - 48)) 0

/-- All characters are decimal digits. -/
def allDigits (l : Str) : Bool := l.all (fun c => c.isDigit)

/-- Model of Python `float(s)` on the decimal literals the log format carries:
optional surrounding whitespace, optional sign, digits with at most one
point, at least one digit overall.  (Exponents, infinities, NaN and digit
underscores are accepted by Python but unused by this program's data; exact
rationals stand in for binary floats, which the program never rounds.)
Returns `none` where Python raises `ValueError`. -/
def pyFloat (l0 : Str) : Option ℚ :=
  let l := pyStrip l0
  let sb : ℚ × Str :=
    match l with
    | '+' :: t => (1, t)
    | '-' :: t => (-1, t)
    | _ => (1, l)
  match splitSub ".".data sb.2 with
  | [ip] =>
    if ip ≠ [] ∧ allDigits ip then some (sb.1 * (digitsToNat ip : ℚ)) else none
  | [ip, fp] =>
    if (ip ≠ [] ∨ fp ≠ []) ∧ allDigits ip ∧ allDigits fp then
      some (sb.1 * ((digitsToNat ip : ℚ) + (digitsToNat fp : ℚ) / ((10 : ℚ) ^ fp.length)))
    else
      none
  | _ => none

/-- Model of Python `str.upper()` (character-wise on the ASCII range used
here). -/
def pyUpper (l : Str) : Str := l.map Char.toUpper

/-- Tag derivation from `replay.py` line 30:
`"".join([c for c in user if c.isalpha()][:3]).upper()`. -/
def tagOf (user : Str) : Str := pyUpper ((user.filter (fun c => c.isAlpha)).take 3)

/-- One parsed observation, the dict appended at `replay.py` lines 31-37. -/
structure Obs where
  time : ℕ
  user : Str
  lon : ℚ
  lat : ℚ
  tag : Str
deriving DecidableEq

/-- The uncaught Python exceptions the load loop can raise, by site. -/
inductive ParseErr where
  /-- `line.split(" at ")[1]` raised `IndexError` (header line without " at "). -/
  | headerSplit
  /-- `strptime` raised `ValueError` on a header timestamp. -/
  | headerTime
  /-- `line.index("]")` raised `ValueError` (no closing bracket). -/
  | noBracketClose
  /-- `strptime` raised `ValueError` on an entry timestamp. -/
  | entryTime
  /-- `user, loc = rest.split(":")` raised `ValueError` (more than one colon). -/
  | unpack
  /-- `float(x)` raised `ValueError` (malformed coordinate field). -/
  | badFloat
  /-- `coords[1]` raised `IndexError` (fewer than two coordinate fields). -/
  | coordIndex
deriving DecidableEq

/-- One iteration of the load loop of `replay.py` lines 16-37: given the
ambient `current_time` and the raw line, produce the new ambient time and the
observation appended, or the uncaught exception.  `current_time` is `none`
before any header has been seen; the Python truthiness test `and current_time`
is the `none` check (a `datetime` object is always truthy). -/
def processLine (ct : Option ℕ) (line0 : Str) : Except ParseErr (Option ℕ × Option Obs) :=
  let line := pyStrip line0
  if ("--- Snapshot".data).isPrefixOf line then
    match splitSub " at ".data line with
    | _ :: second :: _ =>
      match strptime ((splitSub " UTC".data second).headD []) with
      | some t => .ok (some t, none)
      | none => .error .headerTime
    | _ => .error .headerSplit
  else if (['[']).isPrefixOf line then
    match ct with
    | none => .ok (none, none)
    | some _ =>
      match indexOfChar ']' line with
      | none => .error .noBracketClose
      | some ts_end =>
        match strptime ((line.take ts_end).drop 1) with
        | none => .error .entryTime
        | some entry_time =>
          let rest := line.drop (ts_end + 2)
          if containsChar ':' rest then
            match splitSub [':'] rest with
            | [user0, loc0] =>
              let user := pyStrip user0
              let loc := pyStrip loc0
              match ((splitSub [','] loc).take 2).mapM pyFloat with
              | none => .error .badFloat
              | some coords =>
                match coords with
                | c0 :: c1 :: _ => .ok (ct, some ⟨entry_time, user, c0, c1, tagOf user⟩)
                | _ => .error .coordIndex
            | _ => .error .unpack
          else
            .ok (ct, none)
  else
    .ok (ct, none)

/-- The load loop of `replay.py` lines 13-37 over a list of raw lines,
starting from ambient context `ct`; observations are accumulated in input
order, and the first uncaught exception aborts the whole load. -/
def parseLines (ct : Option ℕ) : List Str → Except ParseErr (List Obs)
  | [] => .ok []
  | l :: rest =>
    match processLine ct l with
    | .error e => .error e
    | .ok (ct2, none) => parseLines ct2 rest
    | .ok (ct2, some o) => (parseLines ct2 rest).map (fun obs => o :: obs)

/-- Whole-file load: `current_time = None`, then the loop over all lines. -/
def parseLog (lines : List Str) : Except ParseErr (List Obs) := parseLines none lines

/-- Hexadecimal digit character (lowercase), as Python `"%x"` formatting. -/
def hexDigitChar (n : ℕ) : Char :=
  if n < 10 then Char.ofNat (48 + n) else Char.ofNat (87 + n)

/-- Python `f"\x7bn:06x\x7d"` for `n < 16 ^ 6`: exactly six zero-padded
lowercase hexadecimal digits.  The argument at the call site is
`hash(tag) % 0xFFFFFF`, which always lies below `16 ^ 6`. -/
def hex6 (n : ℕ) : Str :=
  [hexDigitChar (n / 16 ^ 5 % 16), hexDigitChar (n / 16 ^ 4 % 16), hexDigitChar (n / 16 ^ 3 % 16),
   hexDigitChar (n / 16 ^ 2 % 16), hexDigitChar (n / 16 % 16), hexDigitChar (n % 16)]

/-- The pseudo-color of `replay.py` line 52, parameterised by the process's
string-hash function `hsh` (Python's `hash` is deterministic within a run but
salted across runs, so it is a parameter of the model).  Python `%` returns a
nonnegative result for a positive modulus, as `Int.emod` does. -/
def hashColor (hsh : Str → ℤ) (tag : Str) : Str :=
  '#' :: hex6 ((hsh tag % (0xFFFFFF : ℤ)).toNat)

/-- The color assigned to one tag, `replay.py` lines 47-52. -/
def tagColor (hsh : Str → ℤ) (tag : Str) : Str :=
  if ("BDR".data).isPrefixOf tag then "red".data
  else if ("ETG".data).isPrefixOf tag then "blue".data
  else hashColor hsh tag

/-- The `tag_colors` dict built by the loop at `replay.py` lines 45-52:
insertion order follows the tag list, and keys are distinct because the loop
runs over `unique_tags`. -/
def tag_colors (hsh : Str → ℤ) (tags : List Str) : List (Str × Str) :=
  tags.map (fun t => (t, tagColor hsh t))

/-- Stable insertion of an observation into a time-sorted list: the new
element goes before the first element of greater-or-equal time. -/
def insertByTime (x : Obs) : List Obs → List Obs
  | [] => [x]
  | y :: t => if x.time ≤ y.time then x :: y :: t else y :: insertByTime x t

/-- Model of `sort_values("time")`: a stable sort by time.  Caveat recorded
for the tie-order claims: pandas' default sort kind is `quicksort`, which the
pandas documentation does not guarantee to be stable, so only consequences
that hold for every time-sorted permutation are read off this model as facts
about the program; within-tie order is a modelling choice. -/
def sortByTime : List Obs → List Obs
  | [] => []
  | x :: t => insertByTime x (sortByTime t)

/-- Model of `groupby("user").tail(1)` on a frame already sorted by time: a
row survives exactly when no later row has the same user, which for a
time-sorted frame is the last (hence maximal-time) row of each user group. -/
def keepLast : List Obs → List Obs
  | [] => []
  | o :: rest =>
    if rest.any (fun p => p.user = o.user) then keepLast rest else o :: keepLast rest

/-- The snapshot-reconstruction step of `create_figure`, `replay.py` lines
104 and 107: filter to `time <= current_time`, sort by time, keep the last
row per user. -/
def reconstruct (df : List Obs) (current_time : ℕ) : List Obs :=
  keepLast (sortByTime (df.filter (fun o => o.time ≤ current_time)))

/-- Model of pandas `Series.unique`: first occurrences, in order. -/
def pdUnique : List Str → List Str
  | [] => []
  | x :: t => x :: pdUnique (t.filter (fun y => ¬ y = x))
termination_by l => l.length
decreasing_by
  simp only [List.length_cons]
  exact Nat.lt_succ_of_le (List.length_filter_le _ _)

/-- Arithmetic mean of a list of rationals (`Series.mean`). -/
def rmean (l : List ℚ) : ℚ := l.sum / (l.length : ℚ)

/-- The module-level state `create_figure` reads: the observation table `df`
(line 39-40), the sorted distinct timeline (line 41) and the tag-color map
(lines 45-52).  `create_figure` only reads these, so the model threads them
through explicitly and returns them alongside the figure. -/
structure Globals where
  df : List Obs
  unique_times : List ℕ
  tag_colors : List (Str × Str)
deriving DecidableEq

/-- One `Scattermapbox` trace added at `replay.py` lines 112-120. -/
structure Trace where
  tag : Str
  lons : List ℚ
  lats : List ℚ
  color : Option Str
  texts : List Str
deriving DecidableEq

/-- The figure contents `create_figure` determines: the traces and the final
mapbox center and zoom of lines 132-138. -/
structure Fig where
  traces : List Trace
  center_lat : ℚ
  center_lon : ℚ
  zoom : ℚ
deriving DecidableEq

/-- `create_figure` of `replay.py` lines 102-139.  The pandas calls it makes
(`df[mask]`, `sort_values` without `inplace`, `groupby(...).tail(1)`,
`unique`, `mean`) all return fresh objects and the function assigns to no
global, so the model returns the module state unchanged next to the figure. -/
def create_figure (g : Globals) (current_time : ℕ) (center : Option (ℚ × ℚ))
    (zoom : ℚ) : Globals × Fig :=
  let current_df := reconstruct g.df current_time
  let traces := (pdUnique (current_df.map (fun o => o.tag))).map (fun tg =>
    let tag_df := current_df.filter (fun o => o.tag = tg)
    Trace.mk tg (tag_df.map (fun o => o.lon)) (tag_df.map (fun o => o.lat))
      (g.tag_colors.lookup tg) (tag_df.map (fun o => o.user)))
  let c : ℚ × ℚ :=
    match center with
    | none =>
      if current_df ≠ [] then
        (rmean (current_df.map (fun o => o.lat)), rmean (current_df.map (fun o => o.lon)))
      else
        (-(41289 / 1000 : ℚ), (174762 / 1000 : ℚ))
    | some p => p
  (g, Fig.mk traces c.1 c.2 zoom)

/-- `advance_slider` of `replay.py` lines 203-206, with the length of the
global `unique_times` as a parameter.  Python computes `len(unique_times)-1`
in ℤ; for every nonnegative cursor the ℕ truncated subtraction agrees (both
comparisons are false for an empty timeline). -/
def advance_slider (numTimes : ℕ) (current_value : ℕ) : ℕ :=
  if current_value < numTimes - 1 then current_value + 1 else current_value

/-- The `map-state` store of `replay.py` line 96: optional center (lat, lon)
and a zoom. -/
structure MapState where
  center : Option (ℚ × ℚ)
  zoom : ℚ
deriving DecidableEq

/-- A non-null `relayoutData` event: `centerKey` models the presence of the
"mapbox.center" key (already projected to its lat and lon entries) and
`zoomKey` the presence of the "mapbox.zoom" key. -/
structure Relayout where
  centerKey : Option (ℚ × ℚ)
  zoomKey : Option ℚ
deriving DecidableEq

/-- `update_map_state` of `replay.py` lines 165-174. -/
def update_map_state : Option Relayout → MapState → MapState
  | none, current_state => current_state
  | some relayout, current_state =>
    let center :=
      match relayout.centerKey with
      | some c => some c
      | none => current_state.center
    let zoom :=
      match relayout.zoomKey with
      | some z => z
      | none => current_state.zoom
    MapState.mk center zoom

/-- Claim C5's spec-side restatement of tag derivation, written from the
spec's words: the first three (or fewer) alphabetic characters of the
identifier, in order, uppercased, with non-alphabetic characters ignored. -/
def tagSpec (user : Str) : Str := ((user.filter (fun c => c.isAlpha)).take 3).map Char.toUpper

/-- Three observations over two entities used by concrete witnesses. -/
def demoObs : List Obs :=
  [Obs.mk 1 ("A".data) 1 2 ("A".data), Obs.mk 2 ("A".data) 3 4 ("A".data),
   Obs.mk 3 ("B".data) 5 6 ("B".data)]

/-- A well-formed snapshot-header line. -/
def goodHeader : Str := "--- Snapshot at 2024-01-01 12:00:00 UTC ---".data

/-- An entry line whose first coordinate field is not a number. -/
def badCoordsEntry : Str := "[2024-01-01 12:00:05] Alpha: abc,1.0".data

/-- An entry line whose remainder after the timestamp has no colon. -/
def noColonEntry : Str := "[2024-01-01 12:00:05] no colon here".data

/-- A well-formed entry line. -/
def strayEntry : Str := "[2024-01-01 12:00:05] Alpha1: 174.76,-41.29".data

/-- A line matching neither recognized shape. -/
def junkLine : Str := "random junk".data

/-- Inserting is a permutation of consing. -/
theorem insertByTime_perm (x : Obs) : ∀ l : List Obs, List.Perm (insertByTime x l) (x :: l)
  | [] => List.Perm.refl _
  | y :: t => by
    unfold insertByTime
    split
    · exact List.Perm.refl _
    · exact ((insertByTime_perm x t).cons y).trans (List.Perm.swap x y t)

/-- Sorting permutes the list. -/
theorem sortByTime_perm : ∀ l : List Obs, List.Perm (sortByTime l) l
  | [] => List.Perm.refl _
  | x :: t => (insertByTime_perm x (sortByTime t)).trans ((sortByTime_perm t).cons x)

/-- Membership in an insertion. -/
theorem mem_insertByTime {a x : Obs} {l : List Obs} :
    a ∈ insertByTime x l ↔ a = x ∨ a ∈ l := by
  rw [(insertByTime_perm x l).mem_iff, List.mem_cons]

/-- Inserting preserves sortedness by time. -/
theorem pairwise_insertByTime (x : Obs) : ∀ l : List Obs,
    List.Pairwise (fun a b => a.time ≤ b.time) l →
    List.Pairwise (fun a b => a.time ≤ b.time) (insertByTime x l)
  | [], _ => by simp [insertByTime]
  | y :: t, h => by
    rw [List.pairwise_cons] at h
    unfold insertByTime
    split
    · rename_i hxy
      refine List.pairwise_cons.mpr ⟨?_, List.pairwise_cons.mpr h⟩
      intro b hb
      rcases List.mem_cons.mp hb with rfl | hbt
      · exact hxy
      · exact le_trans hxy (h.1 b hbt)
    · rename_i hxy
      refine List.pairwise_cons.mpr ⟨?_, pairwise_insertByTime x t h.2⟩
      intro b hb
      rcases mem_insertByTime.mp hb with rfl | hbt
      · omega
      · exact h.1 b hbt

/-- The model sort is sorted by time. -/
theorem sortByTime_sorted : ∀ l : List Obs,
    List.Pairwise (fun a b => a.time ≤ b.time) (sortByTime l)
  | [] => List.Pairwise.nil
  | x :: t => pairwise_insertByTime x (sortByTime t) (sortByTime_sorted t)

/-- Rows kept by `keepLast` come from the frame. -/
theorem keepLast_subset : ∀ l : List Obs, ∀ a ∈ keepLast l, a ∈ l
  | [], a, ha => by simp [keepLast] at ha
  | o :: rest, a, ha => by
    unfold keepLast at ha
    split at ha
    · exact List.mem_cons_of_mem o (keepLast_subset rest a ha)
    · rcases List.mem_cons.mp ha with rfl | h
      · exact List.mem_cons_self _ _
      · exact List.mem_cons_of_mem o (keepLast_subset rest a h)

/-- `keepLast` keeps exactly the users of the frame. -/
theorem user_mem_keepLast {u : Str} : ∀ l : List Obs,
    (∃ o ∈ keepLast l, o.user = u) ↔ ∃ o ∈ l, o.user = u
  | [] => by simp [keepLast]
  | x :: rest => by
    constructor
    · rintro ⟨o, ho, hu⟩
      exact ⟨o, keepLast_subset _ o ho, hu⟩
    · rintro ⟨o, ho, hu⟩
      unfold keepLast
      split
      · rename_i hany
        simp only [List.any_eq_true, decide_eq_true_eq] at hany
        rcases List.mem_cons.mp ho with rfl | hrest
        · obtain ⟨p, hp, hpu⟩ := hany
          exact (user_mem_keepLast rest).mpr ⟨p, hp, hpu.trans hu⟩
        · exact (user_mem_keepLast rest).mpr ⟨o, hrest, hu⟩
      · rcases List.mem_cons.mp ho with rfl | hrest
        · exact ⟨o, List.mem_cons_self _ _, hu⟩
        · obtain ⟨p, hp, hpu⟩ := (user_mem_keepLast rest).mpr ⟨o, hrest, hu⟩
          exact ⟨p, List.mem_cons_of_mem _ hp, hpu⟩

/-- On a time-sorted frame, a row kept by `keepLast` has the greatest time
among the rows of its user. -/
theorem keepLast_max : ∀ l : List Obs,
    List.Pairwise (fun a b => a.time ≤ b.time) l →
    ∀ o ∈ keepLast l, ∀ o' ∈ l, o'.user = o.user → o'.time ≤ o.time
  | [], _, o, ho => by simp [keepLast] at ho
  | x :: rest, h, o, ho => by
    rw [List.pairwise_cons] at h
    intro o' ho' huser
    unfold keepLast at ho
    split at ho
    · rcases List.mem_cons.mp ho' with rfl | hrest
      · exact h.1 o (keepLast_subset rest o ho)
      · exact keepLast_max rest h.2 o ho o' hrest huser
    · rename_i hany
      rcases List.mem_cons.mp ho with rfl | hko
      · rcases List.mem_cons.mp ho' with rfl | hrest
        · exact le_refl _
        · exact absurd (List.any_eq_true.mpr ⟨o', hrest, by simp [huser]⟩) hany
      · rcases List.mem_cons.mp ho' with rfl | hrest
        · exact h.1 o (keepLast_subset rest o hko)
        · exact keepLast_max rest h.2 o hko o' hrest huser

/-- `keepLast` keeps at most one row per user. -/
theorem keepLast_unique_user : ∀ l : List Obs,
    ∀ o₁ ∈ keepLast l, ∀ o₂ ∈ keepLast l, o₁.user = o₂.user → o₁ = o₂
  | [] => by simp [keepLast]
  | x :: rest => by
    intro o₁ h1 o₂ h2 hu
    by_cases hc : rest.any (fun p => p.user = x.user) = true
    · unfold keepLast at h1 h2
      rw [if_pos hc] at h1 h2
      exact keepLast_unique_user rest o₁ h1 o₂ h2 hu
    · unfold keepLast at h1 h2
      rw [if_neg hc] at h1 h2
      rcases List.mem_cons.mp h1 with rfl | h1'
      · rcases List.mem_cons.mp h2 with rfl | h2'
        · rfl
        · exact absurd (List.any_eq_true.mpr
            ⟨o₂, keepLast_subset rest o₂ h2', by simp [hu.symm]⟩) hc
      · rcases List.mem_cons.mp h2 with rfl | h2'
        · exact absurd (List.any_eq_true.mpr
            ⟨o₁, keepLast_subset rest o₁ h1', by simp [hu]⟩) hc
        · exact keepLast_unique_user rest o₁ h1' o₂ h2' hu

/-- Rows of the reconstruction come from the table and lie at or before the
cursor. -/
theorem mem_reconstruct {o : Obs} {df : List Obs} {t : ℕ} (h : o ∈ reconstruct df t) :
    o ∈ df ∧ o.time ≤ t := by
  have h1 := (sortByTime_perm _).mem_iff.mp (keepLast_subset _ o h)
  rw [List.mem_filter] at h1
  exact ⟨h1.1, by simpa using h1.2⟩

/-- An entity is present in the reconstruction at `t` exactly when it has an
observation at or before `t`. -/
theorem users_reconstruct {u : Str} {df : List Obs} {t : ℕ} :
    (∃ o ∈ reconstruct df t, o.user = u) ↔ ∃ o ∈ df, o.user = u ∧ o.time ≤ t := by
  rw [reconstruct, user_mem_keepLast]
  constructor
  · rintro ⟨o, ho, hu⟩
    have hm := (sortByTime_perm _).mem_iff.mp ho
    rw [List.mem_filter] at hm
    exact ⟨o, hm.1, hu, by simpa using hm.2⟩
  · rintro ⟨o, ho, hu, ht⟩
    exact ⟨o, (sortByTime_perm _).mem_iff.mpr
      (List.mem_filter.mpr ⟨ho, by simpa using ht⟩), hu⟩

/-- Claim C1: for every cursor time `t`, the filter-and-group step of
`create_figure` (the function `reconstruct`) contains an entity exactly when
the entity has a parsed observation with time at most `t`; every row it
returns is such an observation of maximal time for its entity, and each
entity contributes exactly one row. -/
theorem reconstruct_latest_per_entity (df : List Obs) (t : ℕ) :
    (∀ u : Str, (∃ o ∈ reconstruct df t, o.user = u) ↔ ∃ o ∈ df, o.user = u ∧ o.time ≤ t) ∧
    (∀ o ∈ reconstruct df t, o ∈ df ∧ o.time ≤ t ∧
      ∀ o' ∈ df, o'.user = o.user → o'.time ≤ t → o'.time ≤ o.time) ∧
    (∀ o₁ ∈ reconstruct df t, ∀ o₂ ∈ reconstruct df t, o₁.user = o₂.user → o₁ = o₂) := by
  refine ⟨fun u => users_reconstruct, fun o ho => ?_,
    fun o₁ h1 o₂ h2 hu => keepLast_unique_user _ o₁ h1 o₂ h2 hu⟩
  obtain ⟨hdf, ht⟩ := mem_reconstruct ho
  refine ⟨hdf, ht, fun o' ho' hu' ht' => ?_⟩
  exact keepLast_max _ (sortByTime_sorted _) o ho o'
    ((sortByTime_perm _).mem_iff.mpr (List.mem_filter.mpr ⟨ho', by simpa using ht'⟩)) hu'

/-- Witness for C1 at a concrete table and cursor. -/
theorem reconstruct_latest_per_entity_witness :
    ∃ o ∈ reconstruct demoObs 2, o.user = "A".data :=
  ((reconstruct_latest_per_entity demoObs 2).1 ("A".data)).mpr (by decide)

/-- Claim C2: advancing the cursor never removes an entity: every entity
present in the reconstruction at `t₁ < t₂` is present at `t₂`. -/
theorem reconstruct_monotonic (df : List Obs) (t₁ t₂ : ℕ) (h : t₁ < t₂) (u : Str)
    (hp : ∃ o ∈ reconstruct df t₁, o.user = u) : ∃ o ∈ reconstruct df t₂, o.user = u := by
  obtain ⟨o, ho, hu, ht⟩ := users_reconstruct.mp hp
  exact users_reconstruct.mpr ⟨o, ho, hu, le_trans ht (le_of_lt h)⟩

/-- Witness for C2 at a concrete table and pair of cursors. -/
theorem reconstruct_monotonic_witness :
    ∃ o ∈ reconstruct demoObs 3, o.user = "A".data :=
  reconstruct_monotonic demoObs 1 3 (by decide) ("A".data) (by decide)

/-- Claim C10: `create_figure` reads but never writes the module state: the
observation table, timeline and color map come back unchanged, and a second
evaluation at the same cursor, center and zoom over the returned state yields
the identical figure. -/
theorem create_figure_pure (g : Globals) (t : ℕ) (center : Option (ℚ × ℚ)) (zoom : ℚ) :
    (create_figure g t center zoom).1 = g ∧
    (create_figure ((create_figure g t center zoom).1) t center zoom).2 =
      (create_figure g t center zoom).2 :=
  ⟨rfl, rfl⟩

/-- A line matching neither recognized shape is skipped and leaves the
ambient context unchanged. -/
theorem processLine_skip {ct : Option ℕ} {l : Str}
    (h1 : ("--- Snapshot".data).isPrefixOf (pyStrip l) = false)
    (h2 : (['[']).isPrefixOf (pyStrip l) = false) :
    processLine ct l = .ok (ct, none) := by
  simp [processLine, h1, h2]

/-- Before any header, every non-header line is skipped (an entry-shaped line
fails the truthiness test on `current_time`). -/
theorem processLine_none_no_header {l : Str}
    (h : ("--- Snapshot".data).isPrefixOf (pyStrip l) = false) :
    processLine none l = .ok (none, none) := by
  simp [processLine, h]

/-- Lines before the first header contribute nothing to the parse. -/
theorem parseLines_none_skip : ∀ pre post : List Str,
    (∀ l ∈ pre, ("--- Snapshot".data).isPrefixOf (pyStrip l) = false) →
    parseLines none (pre ++ post) = parseLines none post
  | [], _, _ => rfl
  | l :: pre, post, h => by
    have h1 := h l (List.mem_cons_self _ _)
    simp only [List.cons_append, parseLines, processLine_none_no_header h1]
    exact parseLines_none_skip pre post (fun x hx => h x (List.mem_cons_of_mem _ hx))

/-- Claim C6: an entry line appearing before any snapshot-header line
produces no observation: a header-free prefix of the input contributes
nothing to `parseLines` (so in particular a log with no header parses to no
observations at all, and every parsed observation arises from a line
processed after some header line). -/
theorem entries_before_header_dropped (pre post : List Str)
    (h : ∀ l ∈ pre, ¬ ("--- Snapshot".data).isPrefixOf (pyStrip l)) :
    parseLines none (pre ++ post) = parseLines none post ∧
    parseLines none pre = Except.ok [] := by
  have h' : ∀ l ∈ pre, ("--- Snapshot".data).isPrefixOf (pyStrip l) = false :=
    fun l hl => by simpa only [Bool.not_eq_true] using h l hl
  refine ⟨parseLines_none_skip pre post h', ?_⟩
  have := parseLines_none_skip pre [] h'
  rwa [List.append_nil] at this

/-- Witness for C6: a well-formed entry line ahead of the first header is
dropped. -/
theorem entries_before_header_dropped_witness :
    parseLines none ([strayEntry] ++ [goodHeader]) = parseLines none [goodHeader] ∧
    parseLines none [strayEntry] = Except.ok [] :=
  entries_before_header_dropped [strayEntry] [goodHeader] (by decide)

/-- Claim C3 counterexample: an entry line with a malformed coordinate field
is not silently skipped; it aborts the whole load (Python `float` raises
`ValueError`), although the same log without that line loads fine.  This
refutes the claim that the parser never fails on an individual line and that
the load fails only on I/O error or a missing file. -/
theorem parse_tolerance_counterexample :
    parseLog [goodHeader, badCoordsEntry] = Except.error ParseErr.badFloat ∧
    parseLog [goodHeader] = Except.ok [] := by
  constructor
  · rfl
  · rfl

/-- Claim C3 (amended): a line matching neither the header nor the entry
shape is silently skipped with parsing continuing, and an entry line whose
remainder has no colon is skipped; but an entry line with malformed
coordinate fields raises an uncaught error that aborts the whole load even
though the file is readable. -/
theorem parse_tolerance_amended :
    (∀ (ct : Option ℕ) (l : Str) (rest : List Str),
      ¬ ("--- Snapshot".data).isPrefixOf (pyStrip l) → ¬ (['[']).isPrefixOf (pyStrip l) →
      parseLines ct (l :: rest) = parseLines ct rest) ∧
    parseLog [goodHeader, noColonEntry] = Except.ok [] ∧
    parseLog [goodHeader, badCoordsEntry] = Except.error ParseErr.badFloat := by
  refine ⟨fun ct l rest h1 h2 => ?_, rfl, rfl⟩
  simp only [parseLines,
    processLine_skip (by simpa only [Bool.not_eq_true] using h1)
      (by simpa only [Bool.not_eq_true] using h2)]

/-- Witness for the amended C3: a junk line between a header and nothing is
skipped with the parse continuing. -/
theorem parse_tolerance_amended_witness :
    parseLines none (junkLine :: [goodHeader]) = parseLines none [goodHeader] :=
  parse_tolerance_amended.1 none junkLine [goodHeader] (by decide) (by decide)

/-- Claim C5: tag derivation is a pure function of the identifier and equals
the spec-side description (first three alphabetic characters, in order,
uppercased, non-alphabetic ignored); in particular "Alpha1" yields "ALP". -/
theorem tag_derivation_spec :
    (∀ user : Str, tagOf user = tagSpec user) ∧ tagOf ("Alpha1".data) = "ALP".data :=
  ⟨fun _ => rfl, by decide⟩

/-- Claim C7: the playback cursor is clamped at the final index: one tick
increments any cursor below the last index and fixes the last index, and
ticking at least `N` times from cursor 0 lands exactly on the final index. -/
theorem advance_slider_clamped (N : ℕ) (hN : 0 < N) :
    (∀ v : ℕ, v ≤ N - 1 →
      (v < N - 1 → advance_slider N v = v + 1) ∧ (v = N - 1 → advance_slider N v = v)) ∧
    (∀ K : ℕ, N ≤ K → (advance_slider N)^[K] 0 = N - 1) := by
  have hmin : ∀ K : ℕ, (advance_slider N)^[K] 0 = min K (N - 1) := by
    intro K
    induction K with
    | zero => simp
    | succ K ih =>
      rw [Function.iterate_succ_apply', ih]
      unfold advance_slider
      split
      · rename_i hlt
        omega
      · rename_i hlt
        omega
  refine ⟨fun v _ => ⟨fun hv => ?_, fun hv => ?_⟩, fun K hK => ?_⟩
  · unfold advance_slider
    rw [if_pos hv]
  · unfold advance_slider
    rw [if_neg (by omega)]
  · rw [hmin K]
    omega

/-- Witness for C7: five ticks over a three-step timeline stop at index 2. -/
theorem advance_slider_clamped_witness : (advance_slider 3)^[5] 0 = 2 :=
  (advance_slider_clamped 3 (by decide)).2 5 (by decide)

/-- Claim C8: the viewport update changes exactly the fields the event
carries: a null event returns the state unchanged, a carried center or zoom
replaces that field, and an uncarried field keeps its prior value. -/
theorem update_map_state_frame (s : MapState) (r : Relayout) :
    update_map_state none s = s ∧
    (r.centerKey = none → (update_map_state (some r) s).center = s.center) ∧
    (∀ c, r.centerKey = some c → (update_map_state (some r) s).center = some c) ∧
    (r.zoomKey = none → (update_map_state (some r) s).zoom = s.zoom) ∧
    (∀ z, r.zoomKey = some z → (update_map_state (some r) s).zoom = z) := by
  refine ⟨rfl, fun h => ?_, fun c h => ?_, fun h => ?_, fun z h => ?_⟩ <;>
    simp [update_map_state, h]

/-- Witness for C8: an event carrying only a zoom replaces the zoom and keeps
the center. -/
theorem update_map_state_frame_witness :
    (update_map_state (some (Relayout.mk none (some 5))) (MapState.mk (some (1, 2)) 12)).center
      = some (1, 2) ∧
    (update_map_state (some (Relayout.mk none (some 5))) (MapState.mk (some (1, 2)) 12)).zoom
      = 5 :=
  ⟨(update_map_state_frame (MapState.mk (some (1, 2)) 12) (Relayout.mk none (some 5))).2.1 rfl,
   (update_map_state_frame (MapState.mk (some (1, 2)) 12)
     (Relayout.mk none (some 5))).2.2.2.2 5 rfl⟩

/-- Claim C9: an identifier with no alphabetic characters gets the empty tag,
and the color assignment gives that tag the hash-derived pseudo-color (it
matches neither literal prefix), both directly and through the built color
map. -/
theorem no_alpha_tag_color (user : Str) (h : ∀ c ∈ user, ¬ c.isAlpha) :
    tagOf user = [] ∧
    ∀ hsh : Str → ℤ, tagColor hsh (tagOf user) = hashColor hsh (tagOf user) ∧
      tag_colors hsh [tagOf user] = [(tagOf user, hashColor hsh [])] := by
  have hfilter : user.filter (fun c => c.isAlpha) = [] :=
    List.filter_eq_nil_iff.mpr (by simpa using h)
  have hempty : tagOf user = [] := by simp [tagOf, pyUpper, hfilter]
  refine ⟨hempty, fun hsh => ?_⟩
  rw [hempty]
  exact ⟨rfl, rfl⟩

/-- Witness for C9 at a digits-and-punctuation identifier. -/
theorem no_alpha_tag_color_witness :
    tagOf ("1234!".data) = [] ∧
    ∀ hsh : Str → ℤ, tagColor hsh (tagOf ("1234!".data)) = hashColor hsh (tagOf ("1234!".data)) ∧
      tag_colors hsh [tagOf ("1234!".data)] = [(tagOf ("1234!".data), hashColor hsh [])] :=
  no_alpha_tag_color ("1234!".data) (by decide)

end Replay
